import Mathlib

/-!
Verification development for the Grafferrous graph library (src/src/lib.rs).

The library stores a graph as four fields: a hash map `node_data` from ids to
payloads, hash maps `edges` and `reverse_edges` from ids to vectors of
successor/predecessor ids, and a vector `nodes` of all ids in insertion order.

Hash maps are embedded as association lists kept in insertion order; every
map-level fact proved here (lookups, per-key vectors, universally quantified
checks) is independent of the unspecified iteration order of the Rust
`FnvHashMap`.  `Vec` becomes `List`.  The `IDDataType` parameter becomes a
type `α` with decidable equality; the `NodeDataType: Default` bound becomes
`Inhabited β` with `default`.  A Rust panic (failed `assert!`, indexing a map
at an absent key) is modelled by `Option`/`Except` error values.
-/

section AssocList

variable {α : Type} {β : Type} [DecidableEq α]

/-- Lookup in an association list, the model of `FnvHashMap` indexing:
first entry whose key equals `a`. -/
def alookup : List (α × β) → α → Option β
  | [], _ => none
  | (k, v) :: rest, a => if k = a then some v else alookup rest a

/-- Model of `HashMap::contains_key`. -/
def acontains (m : List (α × β)) (a : α) : Bool :=
  (alookup m a).isSome

/-- Model of `HashMap::insert`: replace the entry in place when the key is
present, append a fresh entry otherwise. -/
def ainsert : List (α × β) → α → β → List (α × β)
  | [], k, v => [(k, v)]
  | (k2, v2) :: rest, k, v =>
      if k2 = k then (k, v) :: rest else (k2, v2) :: ainsert rest k v

/-- Model of `map.entry(k).or_default().push(v)` on a `HashMap<_, Vec<_>>`:
push `v` onto the vector at key `k`, creating the entry if absent. -/
def entryPush : List (α × List α) → α → α → List (α × List α)
  | [], k, v => [(k, [v])]
  | (k2, vs) :: rest, k, v =>
      if k2 = k then (k2, vs ++ [v]) :: rest else (k2, vs) :: entryPush rest k v

theorem alookup_nil (a : α) : alookup ([] : List (α × β)) a = none := rfl

theorem acontains_ainsert (m : List (α × β)) (k a : α) (v : β) :
    acontains (ainsert m k v) a = true ↔ a = k ∨ acontains m a = true := by
  induction m with
  | nil =>
      simp [ainsert, acontains, alookup]
      constructor
      · intro h; exact h.symm
      · intro h; exact h.symm
  | cons p rest ih =>
      obtain ⟨k2, v2⟩ := p
      by_cases hk : k2 = k
      · subst hk
        simp [ainsert, acontains, alookup]
        by_cases hak : k2 = a
        · subst hak; simp
        · simp [hak]
          intro h; exact absurd h.symm hak
      · simp [ainsert, hk, acontains, alookup]
        by_cases hka : k2 = a
        · subst hka; simp
        · simp [hka]
          exact ih

theorem acontains_entryPush (m : List (α × List α)) (k a v : α) :
    acontains (entryPush m k v) a = true ↔ a = k ∨ acontains m a = true := by
  induction m with
  | nil =>
      simp [entryPush, acontains, alookup]
      constructor
      · intro h; exact h.symm
      · intro h; exact h.symm
  | cons p rest ih =>
      obtain ⟨k2, vs⟩ := p
      by_cases hk : k2 = k
      · subst hk
        simp [entryPush, acontains, alookup]
        by_cases hak : k2 = a
        · subst hak; simp
        · simp [hak]
          intro h; exact absurd h.symm hak
      · simp [entryPush, hk, acontains, alookup]
        by_cases hka : k2 = a
        · subst hka; simp
        · simp [hka]
          exact ih

theorem acontains_false_iff (m : List (α × β)) (a : α) :
    acontains m a = false ↔ alookup m a = none := by
  simp [acontains, Option.isSome]
  cases alookup m a <;> simp

end AssocList

/-- The graph data structure of `lib.rs`: payloads, forward adjacency,
reverse adjacency, and the vector of node ids in insertion order. -/
structure Graph (α : Type) (β : Type) where
  node_data : List (α × β)
  edges : List (α × List α)
  reverse_edges : List (α × List α)
  nodes : List α
deriving DecidableEq

section GraphOps

variable {α : Type} {β : Type} [DecidableEq α] [Inhabited β]

/-- `Graph::new`: the empty graph. -/
def Graph.new : Graph α β :=
  { node_data := [], edges := [], reverse_edges := [], nodes := [] }

/-- `Graph::add_node_with_data`: when the id is already a key of `node_data`
the call only prints a warning and returns; otherwise the id is pushed onto
`nodes`, empty adjacency entries are inserted, and the payload is stored. -/
def Graph.add_node_with_data (g : Graph α β) (id : α) (data : β) : Graph α β :=
  if acontains g.node_data id then g
  else
    { node_data := ainsert g.node_data id data
      edges := ainsert g.edges id []
      reverse_edges := ainsert g.reverse_edges id []
      nodes := g.nodes ++ [id] }

/-- `Graph::add_node`: `add_node_with_data` with the payload default. -/
def Graph.add_node (g : Graph α β) (id : α) : Graph α β :=
  g.add_node_with_data id default

/-- `Graph::add_directed_edge`: implicitly create missing endpoints via
`add_node`, then unconditionally push `v` onto `edges[u]` and `u` onto
`reverse_edges[v]` (the source performs no duplicate check). -/
def Graph.add_directed_edge (g : Graph α β) (u v : α) : Graph α β :=
  let g1 := if acontains g.node_data u then g else g.add_node u
  let g2 := if acontains g1.node_data v then g1 else g1.add_node v
  { g2 with
      edges := entryPush g2.edges u v
      reverse_edges := entryPush g2.reverse_edges v u }

/-- `Graph::add_edge`: a directed edge in each direction. -/
def Graph.add_edge (g : Graph α β) (u v : α) : Graph α β :=
  (g.add_directed_edge u v).add_directed_edge v u

/-- `Graph::from_edges`: fold `add_directed_edge` over the pairs from the
empty graph. -/
def Graph.from_edges (pairs : List (α × α)) : Graph α β :=
  pairs.foldl (fun g p => g.add_directed_edge p.1 p.2) Graph.new

/-- `Graph::neighbors`: the successor vector, or empty when `id` is not a key
of `edges`. -/
def Graph.neighbors (g : Graph α β) (id : α) : List α :=
  match alookup g.edges id with
  | none => []
  | some vs => vs

/-- `Graph::neighborhood`: `neighbors id` with `id` pushed at the end. -/
def Graph.neighborhood (g : Graph α β) (id : α) : List α :=
  g.neighbors id ++ [id]

/-- `Graph::reverse_neighbors`: the source indexes `reverse_edges[&id]`
directly, which panics when the key is absent; `none` models that panic. -/
def Graph.reverse_neighbors (g : Graph α β) (id : α) : Option (List α) :=
  alookup g.reverse_edges id

/-- `Graph::is_undirected`: every recorded edge `(u,v)` has `v` a key of
`edges` and `u` a member of `edges[v]`. -/
def Graph.is_undirected (g : Graph α β) : Bool :=
  g.edges.all fun p =>
    p.2.all fun t =>
      match alookup g.edges t with
      | none => false
      | some vs => vs.contains p.1

/-- The frontier loop of `Graph::is_part_of_a_cycle`: starting from a layer,
return true as soon as the origin appears in a layer, expanding each layer to
the concatenated neighbor lists of its members, for at most the given number
of hops. -/
def Graph.cycle_layers (g : Graph α β) (origin : α) : Nat → List α → Bool
  | 0, _ => false
  | d + 1, layer =>
      if layer.contains origin then true
      else g.cycle_layers origin d (layer.flatMap g.neighbors)

/-- `Graph::is_part_of_a_cycle`: run the frontier loop from the direct
successors of `origin` for `nodes.len()` hops. -/
def Graph.is_part_of_a_cycle (g : Graph α β) (origin : α) : Bool :=
  g.cycle_layers origin g.nodes.length (g.neighbors origin)

/-- `Graph::is_directed_acyclic`: false when the graph is undirected,
otherwise true iff no node is part of a cycle. -/
def Graph.is_directed_acyclic (g : Graph α β) : Bool :=
  if g.is_undirected then false
  else g.nodes.all fun n => !(g.is_part_of_a_cycle n)

end GraphOps

section Generators

variable {β : Type} [Inhabited β]

/-- `generate_cycle_graph`: the source bypasses the insertion operations and
assigns `node_data`, `nodes` and `edges` directly; `reverse_edges` keeps the
empty value from `Graph::new`.  The unspecified iteration order of the hash
map keys is modelled as the range order `0, 1, ..., n-1`. -/
def generate_cycle_graph (n : Nat) : Graph Nat β :=
  let nd : List (Nat × β) := (List.range n).map fun i => (i, default)
  let ns : List Nat := nd.map Prod.fst
  { node_data := nd
    nodes := ns
    edges := ns.map fun id => (id, [(id + 1) % n, (id + n - 1) % n])
    reverse_edges := [] }

/-- `generate_grid_graph`: direct field assignment exactly as in the source;
`reverse_edges` keeps the empty value from `Graph::new`. -/
def generate_grid_graph (width height : Nat) : Graph (Nat × Nat) β :=
  let nd : List ((Nat × Nat) × β) :=
    (List.range width).flatMap fun x => (List.range height).map fun y => ((x, y), default)
  let ns : List (Nat × Nat) := nd.map Prod.fst
  { node_data := nd
    nodes := ns
    edges := ns.map fun id =>
      (id,
        (if id.1 > 0 then [(id.1 - 1, id.2)] else []) ++
        (if id.1 < width - 1 then [(id.1 + 1, id.2)] else []) ++
        (if id.2 > 0 then [(id.1, id.2 - 1)] else []) ++
        (if id.2 < height - 1 then [(id.1, id.2 + 1)] else []))
    reverse_edges := [] }

/-- `generate_random_graph`: direct field assignment as in the source, with
the random draw `rand::random::<f64>() < p` at node `id` and candidate
successor `to` abstracted into a Boolean oracle `coin id to`; `reverse_edges`
keeps the empty value from `Graph::new`. -/
def generate_random_graph (n : Nat) (coin : Nat → Nat → Bool) : Graph Nat β :=
  let nd : List (Nat × β) := (List.range n).map fun i => (i, default)
  let ns : List Nat := nd.map Prod.fst
  { node_data := nd
    nodes := ns
    edges := ns.map fun id => (id, (List.range n).filter fun t => coin id t)
    reverse_edges := [] }

end Generators

/-- The failure conditions of `count_paths`: the two `assert!` panics, the
panic of `reverse_neighbors` on an absent key, and exhaustion of the explicit
recursion fuel of the embedding. -/
inductive CountError : Type
  | unknownNode : CountError
  | notAcyclic : CountError
  | missingKey : CountError
  | outOfFuel : CountError
deriving DecidableEq

section PathEnumerator

variable {α : Type} {β : Type} [DecidableEq α] [Inhabited β]

/-- The predecessor loop of `count_paths`: fold over the reverse neighbors,
adding 1 when the predecessor is the start node and the recursive count
otherwise, propagating the first failure. -/
def sum_preds (f : α → Except CountError Nat) (start : α) :
    List α → Nat → Except CountError Nat
  | [], acc => Except.ok acc
  | p :: ps, acc =>
      if p = start then sum_preds f start ps (acc + 1)
      else
        match f p with
        | Except.error e => Except.error e
        | Except.ok n => sum_preds f start ps (acc + n)

/-- `count_paths` with explicit fuel bounding the recursion depth.  Each call
re-checks the three `assert!` preconditions exactly as the source does, then
either returns 1 when `start == end` or sums over `reverse_neighbors end`. -/
def count_paths_fuel (g : Graph α β) : Nat → α → α → Except CountError Nat
  | 0, _, _ => Except.error CountError.outOfFuel
  | fuel + 1, start, stop =>
      if !(g.nodes.contains start) then Except.error CountError.unknownNode
      else if !(g.nodes.contains stop) then Except.error CountError.unknownNode
      else if !g.is_directed_acyclic then Except.error CountError.notAcyclic
      else if start = stop then Except.ok 1
      else
        match g.reverse_neighbors stop with
        | none => Except.error CountError.missingKey
        | some preds => sum_preds (fun p => count_paths_fuel g fuel start p) start preds 0

/-- `count_paths`: in the source the recursion terminates because the DAG
precondition bounds the recursion depth by the number of nodes; the wrapper
therefore supplies `nodes.length + 1` fuel, which exceeds that depth. -/
def count_paths (g : Graph α β) (start stop : α) : Except CountError Nat :=
  count_paths_fuel g (g.nodes.length + 1) start stop

end PathEnumerator

/-- One call of the public mutation interface of the store. -/
inductive Op (α : Type) (β : Type) : Type
  | addNode (id : α) : Op α β
  | addNodeWithData (id : α) (data : β) : Op α β
  | addDirectedEdge (u v : α) : Op α β
  | addEdge (u v : α) : Op α β

section OpSequences

variable {α : Type} {β : Type} [DecidableEq α] [Inhabited β]

/-- Apply one public mutation call. -/
def applyOp (g : Graph α β) : Op α β → Graph α β
  | Op.addNode id => g.add_node id
  | Op.addNodeWithData id data => g.add_node_with_data id data
  | Op.addDirectedEdge u v => g.add_directed_edge u v
  | Op.addEdge u v => g.add_edge u v

/-- The graph reached from the empty graph by a sequence of public calls. -/
def build (ops : List (Op α β)) : Graph α β :=
  ops.foldl applyOp Graph.new

/-- The key sets of all three maps coincide with the node directory. -/
def KeysMatch (g : Graph α β) : Prop :=
  (∀ a, acontains g.node_data a = true ↔ a ∈ g.nodes) ∧
  (∀ a, acontains g.edges a = true ↔ a ∈ g.nodes) ∧
  (∀ a, acontains g.reverse_edges a = true ↔ a ∈ g.nodes)

omit [Inhabited β] in
theorem keysMatch_new : KeysMatch (Graph.new : Graph α β) := by
  refine ⟨?_, ?_, ?_⟩ <;> intro a <;> simp [Graph.new, acontains, alookup]

omit [Inhabited β] in
theorem keysMatch_add_node_with_data {g : Graph α β} (h : KeysMatch g)
    (id : α) (data : β) : KeysMatch (g.add_node_with_data id data) := by
  unfold Graph.add_node_with_data
  by_cases hc : acontains g.node_data id = true
  · simp [hc]; exact h
  · simp [hc]
    refine ⟨?_, ?_, ?_⟩ <;> intro a <;>
      simp [acontains_ainsert, h.1 a, h.2.1 a, h.2.2 a] <;> tauto

theorem keysMatch_add_node {g : Graph α β} (h : KeysMatch g) (id : α) :
    KeysMatch (g.add_node id) :=
  keysMatch_add_node_with_data h id default

theorem acontains_node_data_add_node (g : Graph α β) (id : α) :
    acontains (g.add_node id).node_data id = true := by
  unfold Graph.add_node Graph.add_node_with_data
  by_cases hc : acontains g.node_data id = true
  · simp [hc]
  · simp [hc, acontains_ainsert]

theorem acontains_node_data_add_node_mono {g : Graph α β} {a : α} (b : α)
    (h : acontains g.node_data a = true) :
    acontains (g.add_node b).node_data a = true := by
  unfold Graph.add_node Graph.add_node_with_data
  by_cases hc : acontains g.node_data b = true
  · simp [hc, h]
  · simp [hc, acontains_ainsert]
    exact Or.inr h

omit [Inhabited β] in
theorem keysMatch_push_edges {g : Graph α β} (h : KeysMatch g) {u v : α}
    (hu : u ∈ g.nodes) (hv : v ∈ g.nodes) :
    KeysMatch
      { g with
          edges := entryPush g.edges u v
          reverse_edges := entryPush g.reverse_edges v u } := by
  refine ⟨h.1, ?_, ?_⟩ <;> intro a
  · simp only [acontains_entryPush, h.2.1 a]
    constructor
    · rintro (rfl | ha)
      · exact hu
      · exact ha
    · exact Or.inr
  · simp only [acontains_entryPush, h.2.2 a]
    constructor
    · rintro (rfl | ha)
      · exact hv
      · exact ha
    · exact Or.inr

theorem keysMatch_add_directed_edge {g : Graph α β} (h : KeysMatch g) (u v : α) :
    KeysMatch (g.add_directed_edge u v) := by
  simp only [Graph.add_directed_edge]
  by_cases h1 : acontains g.node_data u = true
  · rw [if_pos h1]
    by_cases h2 : acontains g.node_data v = true
    · rw [if_pos h2]
      exact keysMatch_push_edges h ((h.1 u).mp h1) ((h.1 v).mp h2)
    · rw [if_neg h2]
      have hA := keysMatch_add_node h v
      exact keysMatch_push_edges hA
        ((hA.1 u).mp (acontains_node_data_add_node_mono v h1))
        ((hA.1 v).mp (acontains_node_data_add_node g v))
  · rw [if_neg h1]
    have hA := keysMatch_add_node h u
    have hu1 : acontains (g.add_node u).node_data u = true :=
      acontains_node_data_add_node g u
    by_cases h2 : acontains (g.add_node u).node_data v = true
    · rw [if_pos h2]
      exact keysMatch_push_edges hA ((hA.1 u).mp hu1) ((hA.1 v).mp h2)
    · rw [if_neg h2]
      have hB := keysMatch_add_node hA v
      exact keysMatch_push_edges hB
        ((hB.1 u).mp (acontains_node_data_add_node_mono v hu1))
        ((hB.1 v).mp (acontains_node_data_add_node (g.add_node u) v))

theorem keysMatch_add_edge {g : Graph α β} (h : KeysMatch g) (u v : α) :
    KeysMatch (g.add_edge u v) :=
  keysMatch_add_directed_edge (keysMatch_add_directed_edge h u v) v u

theorem keysMatch_applyOp {g : Graph α β} (h : KeysMatch g) (op : Op α β) :
    KeysMatch (applyOp g op) := by
  cases op with
  | addNode id => exact keysMatch_add_node h id
  | addNodeWithData id data => exact keysMatch_add_node_with_data h id data
  | addDirectedEdge u v => exact keysMatch_add_directed_edge h u v
  | addEdge u v => exact keysMatch_add_edge h u v

theorem keysMatch_foldl (ops : List (Op α β)) :
    ∀ g : Graph α β, KeysMatch g → KeysMatch (ops.foldl applyOp g) := by
  induction ops with
  | nil => intro g h; simpa using h
  | cons op rest ih =>
      intro g h
      simp only [List.foldl]
      exact ih _ (keysMatch_applyOp h op)

theorem keysMatch_build (ops : List (Op α β)) : KeysMatch (build ops) :=
  keysMatch_foldl ops Graph.new keysMatch_new

end OpSequences

/-- The mirror invariant of the spec: `v` is a forward successor of `u` iff
`u` is a reverse predecessor of `v` (an absent key reads as the empty list). -/
def mirror_invariant {α : Type} {β : Type} [DecidableEq α] (g : Graph α β) : Prop :=
  ∀ u v : α, v ∈ (alookup g.edges u).getD [] ↔ u ∈ (alookup g.reverse_edges v).getD []

theorem acontains_iff_mem_keys {α β : Type} [DecidableEq α]
    (m : List (α × β)) (a : α) :
    acontains m a = true ↔ a ∈ m.map Prod.fst := by
  induction m with
  | nil => simp [acontains, alookup]
  | cons p rest ih =>
      obtain ⟨k, v⟩ := p
      by_cases h : k = a
      · subst h; simp [acontains, alookup]
      · have hstep : acontains ((k, v) :: rest) a = acontains rest a := by
          simp [acontains, alookup, h]
        rw [hstep, ih]
        simp only [List.map_cons, List.mem_cons]
        constructor
        · exact Or.inr
        · rintro (rfl | ha)
          · exact absurd rfl h
          · exact ha

/-- The directed chain 0→1→2→3→4→5→6 of the spec, built with
`add_directed_edge` through `from_edges`. -/
def chainG : Graph Nat Nat :=
  Graph.from_edges [(0, 1), (1, 2), (2, 3), (3, 4), (4, 5), (5, 6)]

/-- The diamond 0→1, 0→2, 1→3, 2→3 of the spec. -/
def diamondG : Graph Nat Nat :=
  Graph.from_edges [(0, 1), (0, 2), (1, 3), (2, 3)]

/-- The two-node ring 0→1, 1→0, a symmetric graph whose nodes are known. -/
def ringG : Graph Nat Nat :=
  Graph.from_edges [(0, 1), (1, 0)]

/-- C1: the claim says a second `add_directed_edge(u,v)` call is a no-op; in
the source the push is unconditional, so after two calls on the empty graph
the forward list holds `[1, 1]`, the reverse list holds `[0, 0]`, and the
state differs from the state after one call. -/
theorem add_directed_edge_not_idempotent :
    alookup (((Graph.new : Graph Nat Nat).add_directed_edge 0 1).add_directed_edge 0 1).edges 0
        = some [1, 1] ∧
    alookup (((Graph.new : Graph Nat Nat).add_directed_edge 0 1).add_directed_edge 0 1).reverse_edges 1
        = some [0, 0] ∧
    ((Graph.new : Graph Nat Nat).add_directed_edge 0 1).add_directed_edge 0 1
        ≠ (Graph.new : Graph Nat Nat).add_directed_edge 0 1 :=
  ⟨rfl, rfl, by decide⟩

/-- C2: the claim says `add_edge(x,x)` leaves `neighbors(x) == [x]`; in the
source both directional pushes go through, so the self-loop appears twice. -/
theorem add_edge_self_loop_duplicated :
    ((Graph.new : Graph Nat Nat).add_edge 0 0).neighbors 0 = [0, 0] ∧
    ((Graph.new : Graph Nat Nat).add_edge 0 0).neighbors 0 ≠ [0] :=
  ⟨rfl, by decide⟩

/-- C3: the claim says `reverse_neighbors` of an unknown id returns an empty
sequence; the source indexes `reverse_edges[&id]`, which panics on an absent
key (modelled by `none`), while `neighbors` of the same id does return `[]`. -/
theorem reverse_neighbors_unknown_panics :
    (Graph.new : Graph Nat Nat).reverse_neighbors 0 = none ∧
    (Graph.new : Graph Nat Nat).neighbors 0 = [] :=
  ⟨rfl, rfl⟩

/-- C4: the claim requires at most one occurrence of the counterpart per
direction after every call sequence; the sequence of two identical
`add_directed_edge(0,1)` calls ends with two occurrences on both sides. -/
theorem mirror_at_most_once_violated :
    ((build [Op.addDirectedEdge 0 1, Op.addDirectedEdge 0 1] : Graph Nat Nat).neighbors 0).count 1
        = 2 ∧
    alookup (build [Op.addDirectedEdge 0 1, Op.addDirectedEdge 0 1] : Graph Nat Nat).reverse_edges 1
        = some [0, 0] :=
  ⟨rfl, rfl⟩

/-- C5 counterexample: `generate_cycle_graph 1` records the forward self-loop
`0 ∈ edges[0]` but leaves `reverse_edges` entirely empty, so the mirror
invariant claimed for the generators fails. -/
theorem generate_cycle_graph_violates_mirror :
    ¬ mirror_invariant (generate_cycle_graph 1 : Graph Nat Nat) := by
  intro h
  have h00 := (h 0 0).mp (by decide)
  exact absurd h00 (by decide)

/-- C5 amended: each generator assigns the fields directly instead of calling
the insertion operations; the node directory still matches the keys of
`node_data`, but `reverse_edges` keeps the empty value from `Graph::new`. -/
theorem generators_bypass_with_node_keys :
    (∀ n : Nat,
      (generate_cycle_graph n : Graph Nat Nat).reverse_edges = [] ∧
      ∀ a : Nat,
        acontains (generate_cycle_graph n : Graph Nat Nat).node_data a = true ↔
          a ∈ (generate_cycle_graph n : Graph Nat Nat).nodes) ∧
    (∀ w h : Nat,
      (generate_grid_graph w h : Graph (Nat × Nat) Nat).reverse_edges = [] ∧
      ∀ a : Nat × Nat,
        acontains (generate_grid_graph w h : Graph (Nat × Nat) Nat).node_data a = true ↔
          a ∈ (generate_grid_graph w h : Graph (Nat × Nat) Nat).nodes) ∧
    (∀ (n : Nat) (coin : Nat → Nat → Bool),
      (generate_random_graph n coin : Graph Nat Nat).reverse_edges = [] ∧
      ∀ a : Nat,
        acontains (generate_random_graph n coin : Graph Nat Nat).node_data a = true ↔
          a ∈ (generate_random_graph n coin : Graph Nat Nat).nodes) := by
  refine ⟨fun n => ⟨rfl, fun a => ?_⟩,
          fun w h => ⟨rfl, fun a => ?_⟩,
          fun n coin => ⟨rfl, fun a => ?_⟩⟩ <;>
    exact acontains_iff_mem_keys _ a

/-- C6: whenever `is_undirected` holds, `is_directed_acyclic` returns false
by its first branch; the empty graph instantiates the vacuous case. -/
theorem is_undirected_implies_not_dag {α β : Type} [DecidableEq α]
    (g : Graph α β) (h : g.is_undirected = true) :
    g.is_directed_acyclic = false := by
  simp [Graph.is_directed_acyclic, h]

/-- C6 witness: the empty graph is vacuously undirected and hence never a
DAG. -/
theorem is_undirected_implies_not_dag_witness :
    (Graph.new : Graph Nat Nat).is_undirected = true ∧
    (Graph.new : Graph Nat Nat).is_directed_acyclic = false :=
  ⟨by decide, is_undirected_implies_not_dag Graph.new (by decide)⟩

/-- C7: `count_paths` returns the unknown-node failure when either endpoint
is outside the node directory, and the not-acyclic failure when both
endpoints are known but `is_directed_acyclic` is false; it never returns a
number in these cases. -/
theorem count_paths_precondition_errors {α β : Type} [DecidableEq α] [Inhabited β]
    (g : Graph α β) (s e : α) :
    (s ∉ g.nodes ∨ e ∉ g.nodes →
      count_paths g s e = Except.error CountError.unknownNode) ∧
    (s ∈ g.nodes → e ∈ g.nodes → g.is_directed_acyclic = false →
      count_paths g s e = Except.error CountError.notAcyclic) := by
  constructor
  · rintro (hs | he)
    · simp [count_paths, count_paths_fuel, hs]
    · by_cases hs : s ∈ g.nodes
      · simp [count_paths, count_paths_fuel, hs, he]
      · simp [count_paths, count_paths_fuel, hs]
  · intro hs he hdag
    simp [count_paths, count_paths_fuel, hs, he, hdag]

/-- C7 witness: the empty graph triggers the unknown-node failure, and the
symmetric two-node ring (whose nodes are known) triggers the not-acyclic
failure. -/
theorem count_paths_precondition_errors_witness :
    count_paths (Graph.new : Graph Nat Nat) 0 0 = Except.error CountError.unknownNode ∧
    count_paths ringG 0 1 = Except.error CountError.notAcyclic :=
  ⟨(count_paths_precondition_errors Graph.new 0 0).1 (Or.inl (by decide)),
   (count_paths_precondition_errors ringG 0 1).2 (by decide) (by decide) (by rfl)⟩

/-- C8: on the diamond 0→1, 0→2, 1→3, 2→3 the path count from 0 to 3 is 2. -/
theorem count_paths_diamond :
    count_paths diamondG 0 3 = Except.ok 2 :=
  rfl

/-- C9: on the directed chain 0→1→2→3→4→5→6 the path count from 0 to 6 is 1,
and the count from every node of the chain to itself is 1. -/
theorem count_paths_chain :
    count_paths chainG 0 6 = Except.ok 1 ∧
    chainG.nodes.map (fun k => count_paths chainG k k) =
      List.replicate 7 (Except.ok 1) :=
  ⟨rfl, rfl⟩

/-- C10: on any graph reached from the empty graph through the public calls,
an id outside the node directory has `neighborhood id = [id]` (the unknown id
is still appended) even though `neighbors id = []`. -/
theorem neighborhood_unknown_id {α β : Type} [DecidableEq α] [Inhabited β]
    (ops : List (Op α β)) (id : α) (h : id ∉ (build ops).nodes) :
    (build ops).neighborhood id = [id] ∧ (build ops).neighbors id = [] := by
  have hk := keysMatch_build ops
  have hcf : acontains (build ops).edges id = false := by
    cases hcc : acontains (build ops).edges id
    · rfl
    · exact absurd ((hk.2.1 id).mp hcc) h
  have hn : (build ops).neighbors id = [] := by
    unfold Graph.neighbors
    rw [(acontains_false_iff _ _).mp hcf]
  exact ⟨by simp [Graph.neighborhood, hn], hn⟩

/-- C10 witness: on the empty graph the unknown id 0 yields neighborhood
`[0]` and neighbors `[]`. -/
theorem neighborhood_unknown_id_witness :
    (build ([] : List (Op Nat Nat))).neighborhood 0 = [0] ∧
    (build ([] : List (Op Nat Nat))).neighbors 0 = [] :=
  neighborhood_unknown_id [] 0 (by decide)
